import Mathlib

/-!
Shallow embedding of the configuration resolver in
`apps/web/src/config/firebase-config.ts` (class `ConfigService`) together
with the error/result types from `apps/web/src/config/types.ts`.

The ambient process environment (`process.env`) is modelled as a record of
optional strings; JavaScript truthiness of an environment variable (`x || y`
falls through on `undefined` and on the empty string) is modelled explicitly.
The `firebase.json` file that `loadEmulatorConfig` reads is modelled as a
`FileState`: browser context (`isNode` false), missing file, parse/IO error
(the `catch` branch), or a parsed object whose `emulators` section carries an
optional JSON value per service `port` field.
-/

/-- The subset of `process.env` that `firebase-config.ts` reads.  A field is
`none` when the variable is unset; `some ""` is a set-but-empty variable,
which JavaScript `||` treats like unset. -/
structure Env where
  NEXT_PUBLIC_APP_ENV : Option String := none
  NODE_ENV : Option String := none
  NEXT_PUBLIC_FIREBASE_PROJECT_ID : Option String := none
  FIREBASE_PROJECT_ID : Option String := none
  NEXT_PUBLIC_FIREBASE_API_KEY : Option String := none
  NEXT_PUBLIC_FIREBASE_AUTH_DOMAIN : Option String := none
  NEXT_PUBLIC_FIREBASE_STORAGE_BUCKET : Option String := none
  NEXT_PUBLIC_FIREBASE_MESSAGING_SENDER_ID : Option String := none
  NEXT_PUBLIC_FIREBASE_APP_ID : Option String := none
  NEXT_PUBLIC_API_URL : Option String := none
  NEXT_PUBLIC_FIREBASE_FUNCTIONS_URL : Option String := none
deriving DecidableEq, Repr

/-- JavaScript truthiness of an environment variable. -/
def truthy : Option String → Bool
  | none => false
  | some s => s ≠ ""

/-- JavaScript `a || b` on two possibly-undefined strings. -/
def jsOr (a b : Option String) : Option String :=
  if truthy a then a else b

/-- JavaScript `a || d` with a string-literal default. -/
def jsOrD (a : Option String) (d : String) : String :=
  match a with
  | some s => if s = "" then d else s
  | none => d

/-- The environment enumeration of `AppConfig.environment`. -/
inductive Environment where
  | development
  | staging
  | production
deriving DecidableEq, Repr

/-- `getEnvironment()` (firebase-config.ts lines 99-104): reads
`NEXT_PUBLIC_APP_ENV || NODE_ENV` from the ambient environment on every
call; it does not consult the cached `this.config`. -/
def getEnvironment (env : Env) : Environment :=
  let e := jsOr env.NEXT_PUBLIC_APP_ENV env.NODE_ENV
  if e = some "production" then .production
  else if e = some "staging" then .staging
  else .development

/-- A JSON value that can sit in a `port` field of `firebase.json`.
JSON numbers that are integers are `jnum`; strings, booleans and null model
the non-integer values JSON.parse can produce there. -/
inductive JPort where
  | jnull
  | jbool (b : Bool)
  | jnum (n : Int)
  | jstr (s : String)
deriving DecidableEq, Repr

/-- JavaScript truthiness of a parsed JSON value. -/
def JPort.isTruthy : JPort → Bool
  | .jnull => false
  | .jbool b => b
  | .jnum n => n ≠ 0
  | .jstr s => s ≠ ""

/-- JavaScript template-literal stringification of a JSON value. -/
def JPort.render : JPort → String
  | .jnull => "null"
  | .jbool b => if b then "true" else "false"
  | .jnum n => toString n
  | .jstr s => s

/-- `emulators.<svc>?.port || d`: the port value when it is truthy,
otherwise the numeric default `d`.  `none` models an absent service entry or
an entry without a `port` field (optional chaining yields `undefined`). -/
def portOr (p : Option JPort) (d : Int) : JPort :=
  match p with
  | some v => if v.isTruthy then v else .jnum d
  | none => .jnum d

/-- The `emulators` section of a parsed `firebase.json`: the `port` value
(if any) for each of the five services. -/
structure EmulatorsJson where
  auth : Option JPort := none
  firestore : Option JPort := none
  functions : Option JPort := none
  storage : Option JPort := none
  hosting : Option JPort := none
deriving DecidableEq, Repr

/-- The state of the world that `loadEmulatorConfig` observes. -/
inductive FileState where
  /-- `isNode` is false: browser context, no file access attempted. -/
  | browser
  /-- `fs.existsSync` is false: firebase.json does not exist. -/
  | absent
  /-- `JSON.parse` (or any other IO step) threw: the `catch` branch runs. -/
  | ioError
  /-- The file parsed; `none` means the `emulators` key is absent or falsy. -/
  | parsed (emulators : Option EmulatorsJson)
deriving DecidableEq, Repr

/-- `EmulatorEndpoint` from types.ts; the port keeps the raw JSON value
because the source applies no integer check to it. -/
structure EmulatorEndpoint where
  host : String
  port : JPort
deriving DecidableEq, Repr

/-- `EmulatorEndpoint & { url }` for the auth service. -/
structure AuthEmulator where
  host : String
  port : JPort
  url : String
deriving DecidableEq, Repr

/-- `EmulatorEndpoint & { baseUrl }` for the functions service. -/
structure FunctionsEmulator where
  host : String
  port : JPort
  baseUrl : String
deriving DecidableEq, Repr

/-- `EmulatorConfig` from types.ts. -/
structure EmulatorConfig where
  auth : AuthEmulator
  firestore : EmulatorEndpoint
  functions : FunctionsEmulator
  storage : EmulatorEndpoint
  hosting : EmulatorEndpoint
deriving DecidableEq, Repr

/-- `FirebaseConfig` from types.ts. -/
structure FirebaseConfig where
  projectId : String
  apiKey : Option String := none
  authDomain : Option String := none
  storageBucket : Option String := none
  messagingSenderId : Option String := none
  appId : Option String := none
  emulators : Option EmulatorConfig := none
deriving DecidableEq, Repr

/-- The `api` sub-record of `AppConfig`. -/
structure ApiConfig where
  baseUrl : String
deriving DecidableEq, Repr

/-- `AppConfig` from types.ts: the resolver's cached settings object. -/
structure AppConfig where
  environment : Environment
  firebase : FirebaseConfig
  api : ApiConfig
deriving DecidableEq, Repr

/-- `ValidationResult` from types.ts. -/
structure ValidationResult where
  valid : Bool
  errors : Option (List String)
deriving DecidableEq, Repr

/-- `ConfigurationError` from types.ts (message, details, resolution). -/
structure ConfigurationError where
  message : String
  details : Option String := none
  resolution : Option String := none
deriving DecidableEq, Repr

/-- `this.config?.firebase?.projectId || 'demo-project'`: the optional chain
on the (possibly not-yet-assigned) `config` field, then the `||` fallback. -/
def thisProjectId (thisConfig : Option AppConfig) : String :=
  match thisConfig with
  | some c => if c.firebase.projectId = "" then "demo-project" else c.firebase.projectId
  | none => "demo-project"

/-- `getDefaultEmulatorConfig()` (lines 267-278). -/
def getDefaultEmulatorConfig (thisConfig : Option AppConfig) : EmulatorConfig :=
  let host := "localhost"
  let projectId := thisProjectId thisConfig
  { auth := { host := host, port := .jnum 9099, url := "http://" ++ host ++ ":9099" }
    firestore := { host := host, port := .jnum 8080 }
    functions := { host := host, port := .jnum 5001,
                   baseUrl := "http://" ++ host ++ ":5001/" ++ projectId ++ "/us-central1" }
    storage := { host := host, port := .jnum 9199 }
    hosting := { host := host, port := .jnum 5000 } }

/-- `loadEmulatorConfig()` (lines 202-262).  Every failure path (browser
context, missing file, missing `emulators` key, parse/IO error caught by the
`catch`) returns the built-in defaults; the success path merges the parsed
ports over the per-service defaults. -/
def loadEmulatorConfig (thisConfig : Option AppConfig) (fs : FileState) : EmulatorConfig :=
  match fs with
  | .browser => getDefaultEmulatorConfig thisConfig
  | .absent => getDefaultEmulatorConfig thisConfig
  | .ioError => getDefaultEmulatorConfig thisConfig
  | .parsed none => getDefaultEmulatorConfig thisConfig
  | .parsed (some em) =>
      let host := "localhost"
      let projectId := thisProjectId thisConfig
      { auth := { host := host, port := portOr em.auth 9099,
                  url := "http://" ++ host ++ ":" ++ (portOr em.auth 9099).render }
        firestore := { host := host, port := portOr em.firestore 8080 }
        functions := { host := host, port := portOr em.functions 5001,
                       baseUrl := "http://" ++ host ++ ":" ++ (portOr em.functions 5001).render
                                  ++ "/" ++ projectId ++ "/us-central1" }
        storage := { host := host, port := portOr em.storage 9199 }
        hosting := { host := host, port := portOr em.hosting 5000 } }

/-- `loadFirebaseConfig()` (lines 178-196).  It is invoked from the
constructor while `this.config` is still unassigned, so the
`loadEmulatorConfig` call receives `none` for the optional chain on
`this.config`. -/
def loadFirebaseConfig (env : Env) (fs : FileState) : FirebaseConfig :=
  let config : FirebaseConfig :=
    { projectId := jsOrD (jsOr env.NEXT_PUBLIC_FIREBASE_PROJECT_ID env.FIREBASE_PROJECT_ID)
                         "demo-project"
      apiKey := env.NEXT_PUBLIC_FIREBASE_API_KEY
      authDomain := env.NEXT_PUBLIC_FIREBASE_AUTH_DOMAIN
      storageBucket := env.NEXT_PUBLIC_FIREBASE_STORAGE_BUCKET
      messagingSenderId := env.NEXT_PUBLIC_FIREBASE_MESSAGING_SENDER_ID
      appId := env.NEXT_PUBLIC_FIREBASE_APP_ID }
  if getEnvironment env = .development then
    { config with emulators := some (loadEmulatorConfig none fs) }
  else config

/-- The error thrown by `getApiBaseUrl` when no source yields a URL. -/
def apiUrlMissingError : ConfigurationError :=
  { message := "API base URL not configured"
    details := some "No NEXT_PUBLIC_API_URL or Firebase Functions URL found"
    resolution := some "Set NEXT_PUBLIC_API_URL in .env.local or ensure Firebase emulators are configured" }

/-- `getApiBaseUrl()` (lines 283-304): explicit override, then the emulator
functions baseUrl, then the production functions URL, else throw. -/
def getApiBaseUrl (env : Env) (cfg : AppConfig) : Except ConfigurationError String :=
  if truthy env.NEXT_PUBLIC_API_URL then
    .ok (env.NEXT_PUBLIC_API_URL.getD "")
  else
    match cfg.firebase.emulators with
    | some em => .ok em.functions.baseUrl
    | none =>
        if truthy env.NEXT_PUBLIC_FIREBASE_FUNCTIONS_URL then
          .ok (env.NEXT_PUBLIC_FIREBASE_FUNCTIONS_URL.getD "")
        else
          .error apiUrlMissingError

/-- `validate()` (lines 144-173), in the source's push order. -/
def validate (cfg : AppConfig) : ValidationResult :=
  let errors : List String :=
    (if cfg.firebase.projectId = "" then ["Firebase projectId is required"] else [])
    ++ (if cfg.environment = .development ∧ cfg.firebase.emulators = none then
          ["Emulator configuration missing in development mode"] else [])
    ++ (if cfg.environment = .production ∧ truthy cfg.firebase.apiKey = false then
          ["Firebase apiKey required for production"] else [])
    ++ (if cfg.environment = .production ∧ truthy cfg.firebase.authDomain = false then
          ["Firebase authDomain required for production"] else [])
  { valid := errors.isEmpty
    errors := if errors.isEmpty then none else some errors }

/-- The error thrown by the constructor when validation fails; `details` is
`validation.errors?.join('\n')`. -/
def validationFailedError (errs : Option (List String)) : ConfigurationError :=
  { message := "Configuration validation failed"
    details := errs.map (String.intercalate "\n")
    resolution := some "Check your .env.local file and ensure Firebase emulators are running" }

/-- The object the constructor assigns to `this.config` before computing the
API base URL (lines 53-59): environment, firebase config, empty baseUrl. -/
def buildConfig0 (env : Env) (fs : FileState) : AppConfig :=
  { environment := getEnvironment env
    firebase := loadFirebaseConfig env fs
    api := { baseUrl := "" } }

/-- Line 62: `this.config.api.baseUrl = ...` (the in-place update). -/
def withBaseUrl (c : AppConfig) (url : String) : AppConfig :=
  { c with api := { baseUrl := url } }

/-- The private constructor (lines 50-76): build the config, set the API
base URL (which may throw), validate (which may throw), return the object. -/
def construct (env : Env) (fs : FileState) : Except ConfigurationError AppConfig :=
  match getApiBaseUrl env (buildConfig0 env fs) with
  | .error e => .error e
  | .ok url =>
      if (validate (withBaseUrl (buildConfig0 env fs) url)).valid then
        .ok (withBaseUrl (buildConfig0 env fs) url)
      else
        .error (validationFailedError (validate (withBaseUrl (buildConfig0 env fs) url)).errors)

/-- `getInstance()` (lines 81-86) over the static singleton slot: returns
the result together with the new value of `ConfigService.instance`.  When
the constructor throws, the assignment to the slot never executes. -/
def getInstance (st : Option AppConfig) (env : Env) (fs : FileState) :
    Except ConfigurationError AppConfig × Option AppConfig :=
  match st with
  | some inst => (.ok inst, some inst)
  | none =>
      match construct env fs with
      | .ok c => (.ok c, some c)
      | .error e => (.error e, none)

/-- `resetInstance()` (lines 92-94). -/
def resetInstance (_st : Option AppConfig) : Option AppConfig := none

/-- `getEmulatorConfig()` (lines 116-118): `this.config.firebase.emulators || null`. -/
def getEmulatorConfig (cfg : AppConfig) : Option EmulatorConfig :=
  cfg.firebase.emulators

/-- `getApiUrl()` (lines 123-125). -/
def getApiUrl (cfg : AppConfig) : String :=
  cfg.api.baseUrl

/-- `isEmulatorMode()` (lines 130-132). -/
def isEmulatorMode (cfg : AppConfig) : Bool :=
  cfg.environment = .development && cfg.firebase.emulators.isSome

/-- `isProduction()` (lines 137-139). -/
def isProduction (cfg : AppConfig) : Bool :=
  cfg.environment = .production

/-- Whether the first character list is a prefix of the second. -/
def isPrefixList : List Char → List Char → Bool
  | [], _ => true
  | _ :: _, [] => false
  | a :: as, b :: bs => a = b && isPrefixList as bs

/-- Whether `sub` occurs as a contiguous sublist of `l`. -/
def subOccurs (sub l : List Char) : Bool :=
  match l with
  | [] => sub.isEmpty
  | _ :: tl => isPrefixList sub l || subOccurs sub tl

/-- Whether `sub` occurs as a substring of `s`. -/
def containsSub (s sub : String) : Bool :=
  subOccurs sub.data s.data

/-! ### Concrete inputs used by witnesses and counterexamples -/

/-- An environment with every variable unset: resolves to development. -/
def envEmpty : Env := {}

/-- Development environment with a project-id override supplied. -/
def envProjectOverride : Env :=
  { NEXT_PUBLIC_FIREBASE_PROJECT_ID := some "my-app" }

/-- Production signal with no credentials and no API URL source. -/
def envProdNoUrl : Env :=
  { NEXT_PUBLIC_APP_ENV := some "production" }

/-- Production signal with credentials and an explicit API URL. -/
def envProdOk : Env :=
  { NEXT_PUBLIC_APP_ENV := some "production"
    NEXT_PUBLIC_FIREBASE_API_KEY := some "k"
    NEXT_PUBLIC_FIREBASE_AUTH_DOMAIN := some "d"
    NEXT_PUBLIC_API_URL := some "https://api.example.com" }

/-- The settings object `construct envEmpty .absent` produces. -/
def cfgDevDefault : AppConfig :=
  { environment := .development
    firebase :=
      { projectId := "demo-project"
        emulators := some
          { auth := { host := "localhost", port := .jnum 9099, url := "http://localhost:9099" }
            firestore := { host := "localhost", port := .jnum 8080 }
            functions := { host := "localhost", port := .jnum 5001,
                           baseUrl := "http://localhost:5001/demo-project/us-central1" }
            storage := { host := "localhost", port := .jnum 9199 }
            hosting := { host := "localhost", port := .jnum 5000 } } }
    api := { baseUrl := "http://localhost:5001/demo-project/us-central1" } }

/-- The settings object `construct envProdOk .absent` produces. -/
def cfgProdOk : AppConfig :=
  { environment := .production
    firebase := { projectId := "demo-project", apiKey := some "k", authDomain := some "d" }
    api := { baseUrl := "https://api.example.com" } }

/-! ### Helper lemmas -/

lemma jsOrD_demo_ne_empty (a : Option String) : jsOrD a "demo-project" ≠ "" := by
  unfold jsOrD
  cases a with
  | none => decide
  | some s =>
      dsimp only
      split
      · decide
      · assumption

lemma loadFirebaseConfig_projectId_ne_empty (env : Env) (fs : FileState) :
    (loadFirebaseConfig env fs).projectId ≠ "" := by
  unfold loadFirebaseConfig
  dsimp only
  split <;> exact jsOrD_demo_ne_empty _

lemma loadFirebaseConfig_emulators_dev (env : Env) (fs : FileState)
    (h : getEnvironment env = .development) :
    (loadFirebaseConfig env fs).emulators = some (loadEmulatorConfig none fs) := by
  unfold loadFirebaseConfig
  simp [h]

lemma loadFirebaseConfig_emulators_nondev (env : Env) (fs : FileState)
    (h : getEnvironment env ≠ .development) :
    (loadFirebaseConfig env fs).emulators = none := by
  unfold loadFirebaseConfig
  simp [h]

lemma withBaseUrl_environment (c : AppConfig) (url : String) :
    (withBaseUrl c url).environment = c.environment := rfl

lemma withBaseUrl_firebase (c : AppConfig) (url : String) :
    (withBaseUrl c url).firebase = c.firebase := rfl

lemma construct_ok_elim {env : Env} {fs : FileState} {c : AppConfig}
    (h : construct env fs = .ok c) :
    ∃ url, getApiBaseUrl env (buildConfig0 env fs) = .ok url ∧
      c = withBaseUrl (buildConfig0 env fs) url ∧
      (validate c).valid = true := by
  unfold construct at h
  cases hg : getApiBaseUrl env (buildConfig0 env fs) with
  | error e => rw [hg] at h; exact absurd h (by simp)
  | ok url =>
      rw [hg] at h
      dsimp only at h
      by_cases hv : (validate (withBaseUrl (buildConfig0 env fs) url)).valid
      · rw [if_pos hv] at h
        refine ⟨url, rfl, ?_, ?_⟩
        · exact (Except.ok.inj h).symm
        · rw [← Except.ok.inj h]; exact hv
      · rw [if_neg hv] at h
        exact absurd h (by simp)

lemma construct_ok_shape {env : Env} {fs : FileState} {c : AppConfig}
    (h : construct env fs = .ok c) :
    c.environment = getEnvironment env ∧ c.firebase = loadFirebaseConfig env fs := by
  obtain ⟨url, _, hc, _⟩ := construct_ok_elim h
  subst hc
  exact ⟨rfl, rfl⟩

lemma validate_dev_valid (c : AppConfig)
    (h1 : c.environment = .development)
    (h2 : c.firebase.projectId ≠ "")
    (h3 : c.firebase.emulators.isSome) :
    (validate c).valid = true := by
  unfold validate
  have h3' : ¬ c.firebase.emulators = none := by
    cases he : c.firebase.emulators with
    | none => rw [he] at h3; exact absurd h3 (by simp)
    | some _ => simp
  simp [h1, h2, h3']

lemma construct_dev_ok (env : Env) (fs : FileState)
    (h : getEnvironment env = .development) :
    ∃ c, construct env fs = .ok c ∧
      c.environment = Environment.development ∧
      c.firebase.emulators = some (loadEmulatorConfig none fs) := by
  have hem : (buildConfig0 env fs).firebase.emulators = some (loadEmulatorConfig none fs) :=
    loadFirebaseConfig_emulators_dev env fs h
  have hurl : ∃ url, getApiBaseUrl env (buildConfig0 env fs) = .ok url := by
    unfold getApiBaseUrl
    by_cases ht : truthy env.NEXT_PUBLIC_API_URL
    · exact ⟨_, by rw [if_pos ht]⟩
    · rw [if_neg ht, hem]
      exact ⟨_, rfl⟩
  obtain ⟨url, hurl⟩ := hurl
  have henv : (withBaseUrl (buildConfig0 env fs) url).environment = Environment.development := by
    rw [withBaseUrl_environment]; exact h
  have hfb : (withBaseUrl (buildConfig0 env fs) url).firebase.emulators
      = some (loadEmulatorConfig none fs) := by
    rw [withBaseUrl_firebase]; exact hem
  refine ⟨withBaseUrl (buildConfig0 env fs) url, ?_, henv, hfb⟩
  unfold construct
  rw [hurl]
  dsimp only
  rw [if_pos]
  apply validate_dev_valid
  · exact henv
  · rw [withBaseUrl_firebase]
    exact loadFirebaseConfig_projectId_ne_empty env fs
  · rw [hfb]; rfl

/-! ### Claims -/

/-- The settings object `construct envProjectOverride .absent` produces:
the override reaches `projectId`, but the functions `baseUrl` still carries
the `demo-project` placeholder. -/
def cfgDevOverride : AppConfig :=
  { environment := .development
    firebase :=
      { projectId := "my-app"
        emulators := some
          { auth := { host := "localhost", port := .jnum 9099, url := "http://localhost:9099" }
            firestore := { host := "localhost", port := .jnum 8080 }
            functions := { host := "localhost", port := .jnum 5001,
                           baseUrl := "http://localhost:5001/demo-project/us-central1" }
            storage := { host := "localhost", port := .jnum 9199 }
            hosting := { host := "localhost", port := .jnum 5000 } } }
    api := { baseUrl := "http://localhost:5001/demo-project/us-central1" } }

/-- C1: with a service-identity override (NEXT_PUBLIC_FIREBASE_PROJECT_ID =
"my-app") in development mode, the constructed settings carry projectId
"my-app", yet the functions baseUrl in localEndpoints is
`http://localhost:5001/demo-project/us-central1`, not
`http://localhost:5001/my-app/us-central1`: the claim's equation fails
because `this.config` is still unassigned when `loadEmulatorConfig` reads
`this.config?.firebase?.projectId`. -/
theorem c1_baseUrl_ignores_project_override :
    construct envProjectOverride .absent = .ok cfgDevOverride ∧
    cfgDevOverride.firebase.projectId = "my-app" ∧
    Option.map (fun ec => ec.functions.baseUrl) cfgDevOverride.firebase.emulators
      = some "http://localhost:5001/demo-project/us-central1" ∧
    "http://localhost:5001/demo-project/us-central1"
      ≠ "http://localhost:5001/my-app/us-central1" :=
  ⟨rfl, rfl, rfl, by decide⟩

/-- C2: if construction throws, the singleton slot stays empty and every
subsequent `getInstance` call re-runs the full resolution pipeline. -/
theorem c2_failed_construction_never_cached (env : Env) (fs : FileState)
    (e : ConfigurationError) (h : construct env fs = .error e) :
    getInstance none env fs = (.error e, none) ∧
    ∀ env2 fs2, (getInstance none env2 fs2).1 = construct env2 fs2 := by
  constructor
  · unfold getInstance
    rw [h]
  · intro env2 fs2
    unfold getInstance
    cases construct env2 fs2 <;> rfl

/-- C2 witness: a production environment with no API URL source fails
construction, and the slot is left empty. -/
theorem c2_witness :
    getInstance none envProdNoUrl .absent = (.error apiUrlMissingError, none) :=
  (c2_failed_construction_never_cached envProdNoUrl .absent apiUrlMissingError rfl).1

/-- C3: once a `getInstance` call has returned a settings object and cached
it, any later `getInstance` call — under any ambient environment and file
state — returns the identical object and leaves the cache unchanged. -/
theorem c3_getInstance_idempotent (st st2 : Option AppConfig) (env env2 : Env)
    (fs fs2 : FileState) (c : AppConfig)
    (h : getInstance st env fs = (.ok c, st2)) :
    getInstance st2 env2 fs2 = (.ok c, st2) := by
  cases st with
  | some inst =>
      unfold getInstance at h
      injection h with h1 h2
      injection h1 with h1
      subst h1
      subst h2
      rfl
  | none =>
      unfold getInstance at h
      cases hc : construct env fs with
      | ok c' =>
          rw [hc] at h
          injection h with h1 h2
          injection h1 with h1
          subst h1
          subst h2
          rfl
      | error e =>
          rw [hc] at h
          injection h with h1 h2
          exact absurd h1 (by simp)

/-- C3 witness: after a development-mode first call caches the default
settings, a second call under changed ambient signals still returns the
identical cached object. -/
theorem c3_witness :
    getInstance (some cfgDevDefault) envProdNoUrl .ioError
      = (.ok cfgDevDefault, some cfgDevDefault) :=
  c3_getInstance_idempotent none (some cfgDevDefault) envEmpty envProdNoUrl
    .absent .ioError cfgDevDefault rfl

/-- C4: the API base URL follows the strict three-level priority — explicit
override, then the emulator functions baseUrl, then the production functions
URL — and when all three sources are absent, construction fails with the
typed configuration error instead of returning an object. -/
theorem c4_apiBaseUrl_priority (env : Env) (cfg : AppConfig) (fs : FileState) :
    (∀ u, env.NEXT_PUBLIC_API_URL = some u → u ≠ "" →
        getApiBaseUrl env cfg = .ok u) ∧
    (env.NEXT_PUBLIC_API_URL = none →
      ∀ em, cfg.firebase.emulators = some em →
        getApiBaseUrl env cfg = .ok em.functions.baseUrl) ∧
    (env.NEXT_PUBLIC_API_URL = none → cfg.firebase.emulators = none →
      ∀ v, env.NEXT_PUBLIC_FIREBASE_FUNCTIONS_URL = some v → v ≠ "" →
        getApiBaseUrl env cfg = .ok v) ∧
    (env.NEXT_PUBLIC_API_URL = none → cfg.firebase.emulators = none →
      env.NEXT_PUBLIC_FIREBASE_FUNCTIONS_URL = none →
        getApiBaseUrl env cfg = .error apiUrlMissingError) ∧
    (env.NEXT_PUBLIC_API_URL = none → env.NEXT_PUBLIC_FIREBASE_FUNCTIONS_URL = none →
      getEnvironment env ≠ .development →
        construct env fs = .error apiUrlMissingError) := by
  refine ⟨?_, ?_, ?_, ?_, ?_⟩
  · intro u hu hne
    simp [getApiBaseUrl, hu, truthy, hne]
  · intro h1 em hem
    simp [getApiBaseUrl, h1, truthy, hem]
  · intro h1 h2 v hv hne
    simp [getApiBaseUrl, h1, h2, hv, truthy, hne]
  · intro h1 h2 h3
    simp [getApiBaseUrl, h1, h2, h3, truthy]
  · intro h1 h2 h3
    have hem : (buildConfig0 env fs).firebase.emulators = none :=
      loadFirebaseConfig_emulators_nondev env fs h3
    have hg : getApiBaseUrl env (buildConfig0 env fs) = .error apiUrlMissingError := by
      simp [getApiBaseUrl, h1, h2, hem, truthy]
    unfold construct
    rw [hg]

/-- C4 witness: the explicit override wins in a concrete production
environment, and a production environment with no source at all makes
construction fail with the typed error. -/
theorem c4_witness :
    getApiBaseUrl envProdOk cfgProdOk = .ok "https://api.example.com" ∧
    construct envProdNoUrl .absent = .error apiUrlMissingError :=
  ⟨(c4_apiBaseUrl_priority envProdOk cfgProdOk .absent).1 "https://api.example.com"
      rfl (by decide),
   (c4_apiBaseUrl_priority envProdNoUrl cfgProdOk .absent).2.2.2.2
      rfl rfl (by decide)⟩

/-- C5: in production, non-empty apiKey and authDomain (with a non-empty
projectId) make `validate` succeed; an absent apiKey makes it fail with an
error message naming `apiKey`. -/
theorem c5_production_validation (cfg : AppConfig)
    (hprod : cfg.environment = .production) :
    (truthy cfg.firebase.apiKey = true → truthy cfg.firebase.authDomain = true →
      cfg.firebase.projectId ≠ "" → (validate cfg).valid = true) ∧
    (cfg.firebase.apiKey = none →
      (validate cfg).valid = false ∧
      ((validate cfg).errors.getD []).any (fun m => containsSub m "apiKey") = true) := by
  constructor
  · intro hk hd hp
    unfold validate
    simp [hprod, hk, hd, hp]
  · intro hk
    have hkt : truthy cfg.firebase.apiKey = false := by rw [hk]; rfl
    unfold validate
    by_cases hp : cfg.firebase.projectId = "" <;>
      by_cases hd : truthy cfg.firebase.authDomain = false <;>
        simp [hprod, hp, hd, hkt] <;> decide

/-- C5 witness: the concrete production environment with credentials
validates, and the same settings with the apiKey removed fail naming
`apiKey`. -/
theorem c5_witness :
    (validate cfgProdOk).valid = true ∧
    (validate { environment := .production
                firebase := { projectId := "demo-project", authDomain := some "d" }
                api := { baseUrl := "https://api.example.com" } }).valid = false :=
  ⟨(c5_production_validation cfgProdOk rfl).1 (by decide) (by decide) (by decide),
   ((c5_production_validation
      { environment := .production
        firebase := { projectId := "demo-project", authDomain := some "d" }
        api := { baseUrl := "https://api.example.com" } } rfl).2 rfl).1⟩

/-- C6: in development, an absent endpoints file yields local endpoints with
every fixed default port, and a file supplying only a (truthy) firestore
port overrides just that service while the others keep their defaults. -/
theorem c6_endpoint_merging (env : Env) (n : Int)
    (h : getEnvironment env = .development) (hn : n ≠ 0) :
    (∃ c, construct env .absent = .ok c ∧
      ∃ ec, getEmulatorConfig c = some ec ∧
        ec.auth.port = .jnum 9099 ∧ ec.firestore.port = .jnum 8080 ∧
        ec.functions.port = .jnum 5001 ∧ ec.storage.port = .jnum 9199 ∧
        ec.hosting.port = .jnum 5000) ∧
    (∃ c, construct env (.parsed (some { firestore := some (.jnum n) })) = .ok c ∧
      ∃ ec, getEmulatorConfig c = some ec ∧
        ec.firestore.port = .jnum n ∧
        ec.auth.port = .jnum 9099 ∧ ec.functions.port = .jnum 5001 ∧
        ec.storage.port = .jnum 9199 ∧ ec.hosting.port = .jnum 5000) := by
  constructor
  · obtain ⟨c, hc, _, hem⟩ := construct_dev_ok env .absent h
    refine ⟨c, hc, loadEmulatorConfig none .absent, hem, rfl, rfl, rfl, rfl, rfl⟩
  · obtain ⟨c, hc, _, hem⟩ :=
      construct_dev_ok env (.parsed (some { firestore := some (.jnum n) })) h
    refine ⟨c, hc, loadEmulatorConfig none (.parsed (some { firestore := some (.jnum n) })),
      hem, ?_, rfl, rfl, rfl, rfl⟩
    show portOr (some (.jnum n)) 8080 = .jnum n
    simp [portOr, JPort.isTruthy, hn]

/-- C6 witness: the empty environment (development) with the file absent,
and with a file carrying only firestore port 9000. -/
theorem c6_witness :
    (∃ c, construct envEmpty .absent = .ok c ∧
      ∃ ec, getEmulatorConfig c = some ec ∧
        ec.auth.port = .jnum 9099 ∧ ec.firestore.port = .jnum 8080 ∧
        ec.functions.port = .jnum 5001 ∧ ec.storage.port = .jnum 9199 ∧
        ec.hosting.port = .jnum 5000) ∧
    (∃ c, construct envEmpty (.parsed (some { firestore := some (.jnum 9000) })) = .ok c ∧
      ∃ ec, getEmulatorConfig c = some ec ∧
        ec.firestore.port = .jnum 9000 ∧
        ec.auth.port = .jnum 9099 ∧ ec.functions.port = .jnum 5001 ∧
        ec.storage.port = .jnum 9199 ∧ ec.hosting.port = .jnum 5000) :=
  c6_endpoint_merging envEmpty 9000 rfl (by decide)

/-- C7 counterexample: a construction under development signals caches
environment = development, yet a later call of the public `getEnvironment()`
method under changed ambient signals (NEXT_PUBLIC_APP_ENV = "production")
returns production, not the value fixed at construction time: the method
re-reads the ambient signals instead of the cached object. -/
theorem c7_getEnvironment_recomputes :
    construct envEmpty .absent = .ok cfgDevDefault ∧
    getEnvironment envProdNoUrl ≠ cfgDevDefault.environment :=
  ⟨rfl, by decide⟩

/-- C7 (amended): the cached `environment` field itself is fixed at
construction from the signals in force at that moment, and `isProduction()`
is a pure read of that cached field; but the public `getEnvironment()`
method re-derives the environment from the ambient signals on every call
and so can disagree with the cached value after the signals change. -/
theorem c7_cached_environment_fixed (env : Env) (fs : FileState) (c : AppConfig)
    (h : construct env fs = .ok c) :
    c.environment = getEnvironment env ∧
    (isProduction c = true ↔ c.environment = .production) := by
  refine ⟨(construct_ok_shape h).1, ?_⟩
  unfold isProduction
  simp

/-- C7 witness: the development construction from the empty environment. -/
theorem c7_witness :
    cfgDevDefault.environment = getEnvironment envEmpty ∧
    (isProduction cfgDevDefault = true ↔ cfgDevDefault.environment = .production) :=
  c7_cached_environment_fixed envEmpty .absent cfgDevDefault rfl

/-- C8 counterexample: a parsed endpoints file whose firestore `port` is the
non-integer string "abc" does not fall back to the default 8080 — the value
is truthy, so `port || 8080` keeps it as-is. -/
theorem c8_noninteger_port_kept :
    (loadEmulatorConfig none
        (.parsed (some { firestore := some (.jstr "abc") }))).firestore.port
      = .jstr "abc" ∧
    JPort.jstr "abc" ≠ JPort.jnum 8080 :=
  ⟨rfl, by decide⟩

/-- C8 (amended): a `port` value that is present but falsy (null, false, 0,
or the empty string) falls back to that service's fixed default, as does an
absent key; but a truthy non-integer value is used as-is — the source
applies JavaScript truthiness, not an integer check. -/
theorem c8_port_fallback_is_truthiness (em : EmulatorsJson) (p : JPort) :
    ((loadEmulatorConfig none (.parsed (some em))).auth.port = portOr em.auth 9099 ∧
     (loadEmulatorConfig none (.parsed (some em))).firestore.port = portOr em.firestore 8080 ∧
     (loadEmulatorConfig none (.parsed (some em))).functions.port = portOr em.functions 5001 ∧
     (loadEmulatorConfig none (.parsed (some em))).storage.port = portOr em.storage 9199 ∧
     (loadEmulatorConfig none (.parsed (some em))).hosting.port = portOr em.hosting 5000) ∧
    (p.isTruthy = false → ∀ d, portOr (some p) d = .jnum d) ∧
    (p.isTruthy = true → ∀ d, portOr (some p) d = p) ∧
    (∀ d, portOr none d = .jnum d) := by
  refine ⟨⟨rfl, rfl, rfl, rfl, rfl⟩, ?_, ?_, fun d => rfl⟩
  · intro hf d
    simp [portOr, hf]
  · intro ht d
    simp [portOr, ht]

/-- C8 witness: a falsy null port falls back, a truthy string port is kept. -/
theorem c8_witness :
    portOr (some .jnull) 8080 = .jnum 8080 ∧
    portOr (some (.jstr "abc")) 8080 = .jstr "abc" :=
  ⟨(c8_port_fallback_is_truthiness {} .jnull).2.1 rfl 8080,
   (c8_port_fallback_is_truthiness {} (.jstr "abc")).2.2.1 rfl 8080⟩

/-- C9: every failure state of the endpoints file (browser context, missing
file, parse/IO error, missing emulators section) degrades to the built-in
defaults instead of propagating, and the only errors construction can ever
produce are the validation error and the missing-API-URL error. -/
theorem c9_loading_never_raises (tc : Option AppConfig) (env : Env) (fs : FileState) :
    (fs = .browser ∨ fs = .absent ∨ fs = .ioError ∨ fs = .parsed none →
      loadEmulatorConfig tc fs = getDefaultEmulatorConfig tc) ∧
    (∀ e, construct env fs = .error e →
      e.message = "Configuration validation failed" ∨
      e.message = "API base URL not configured") := by
  constructor
  · rintro (rfl | rfl | rfl | rfl) <;> rfl
  · intro e he
    unfold construct at he
    cases hg : getApiBaseUrl env (buildConfig0 env fs) with
    | error e2 =>
        rw [hg] at he
        have h2 : e2 = apiUrlMissingError := by
          unfold getApiBaseUrl at hg
          by_cases ht : truthy env.NEXT_PUBLIC_API_URL
          · rw [if_pos ht] at hg
            exact absurd hg (by simp)
          · rw [if_neg ht] at hg
            cases hem : (buildConfig0 env fs).firebase.emulators with
            | some em =>
                rw [hem] at hg
                exact absurd hg (by simp)
            | none =>
                rw [hem] at hg
                by_cases ht2 : truthy env.NEXT_PUBLIC_FIREBASE_FUNCTIONS_URL
                · rw [if_pos ht2] at hg
                  exact absurd hg (by simp)
                · rw [if_neg ht2] at hg
                  dsimp only at hg
                  exact (Except.error.inj hg).symm
        have h3 : e = e2 := (Except.error.inj he).symm
        right
        rw [h3, h2]
        rfl
    | ok url =>
        rw [hg] at he
        dsimp only at he
        by_cases hv : (validate (withBaseUrl (buildConfig0 env fs) url)).valid
        · rw [if_pos hv] at he
          exact absurd he (by simp)
        · rw [if_neg hv] at he
          left
          rw [← Except.error.inj he]
          rfl

/-- C9 witness: the IO-error state degrades to defaults, and the concrete
construction failure carries one of the two fatal messages. -/
theorem c9_witness :
    loadEmulatorConfig none .ioError = getDefaultEmulatorConfig none ∧
    (apiUrlMissingError.message = "Configuration validation failed" ∨
     apiUrlMissingError.message = "API base URL not configured") :=
  ⟨(c9_loading_never_raises none envEmpty .ioError).1 (Or.inr (Or.inr (Or.inl rfl))),
   (c9_loading_never_raises none envProdNoUrl .absent).2 apiUrlMissingError rfl⟩

/-- C10: every successfully constructed settings object whose environment is
production carries no emulator configuration, because the loader populates
`emulators` only when the derived environment is development. -/
theorem c10_production_no_emulators (env : Env) (fs : FileState) (c : AppConfig)
    (h : construct env fs = .ok c) (hp : c.environment = .production) :
    c.firebase.emulators = none := by
  obtain ⟨henv, hfb⟩ := construct_ok_shape h
  rw [hfb]
  apply loadFirebaseConfig_emulators_nondev
  rw [henv.symm.trans hp]
  decide

/-- C10 witness: the concrete successful production construction. -/
theorem c10_witness : cfgProdOk.firebase.emulators = none :=
  c10_production_no_emulators envProdOk .absent cfgProdOk rfl rfl
